import Mathlib

/-!
Verification of the PUBG-Lobby generation pipeline.

Shallow embedding of the repository's core logic:
* `src/services/geminiService.ts` — data-URL validation, retry policy,
  prompt fallback, gender classification;
* `src/App.tsx` / `src/unnamed/part_001` — the bounded-concurrency
  generation scheduler and single-item regeneration;
* `src/unnamed/part_000` — the album-page compositor.

Strings are modelled as `List Char`; remote calls, random jitter and
rotation are modelled as explicit oracles passed in as parameters.
Geometry is modelled over `ℚ` (the source uses IEEE doubles; every
operation involved in the stated claims is exact integer or short
decimal arithmetic).
-/

namespace PubgLobby

/-- The three classifier outcomes of `detectGender`. -/
inductive Gender where
  | male
  | female
  | unknown
deriving DecidableEq, Repr

/-- JS `a || b` for an optional numeric field: `0` and `undefined` are falsy. -/
def jsOrNum (a b : Option Nat) : Option Nat :=
  match a with
  | some n => if n = 0 then b else some n
  | none => b

/-- JS `a || b` for an optional string field: `undefined` and `""` are falsy. -/
def jsOrStr (a : Option (List Char)) (b : List Char) : List Char :=
  match a with
  | some s => if s = [] then b else s
  | none => b

/-- A thrown JavaScript value as `withRetry` inspects it: possibly nested
status code (`error?.error?.code`), top-level status (`error?.status`),
nested and top-level message fields, and whether it is an `Error` instance. -/
structure JsError where
  nestedCode : Option Nat
  statusField : Option Nat
  nestedMessage : Option (List Char)
  messageField : Option (List Char)
  isErrorInstance : Bool
deriving DecidableEq, Repr

/-- `new Error(msg)`. -/
def mkError (m : List Char) : JsError :=
  { nestedCode := none, statusField := none, nestedMessage := none,
    messageField := some m, isErrorInstance := true }

/-- `error?.error?.code || error?.status` (geminiService.ts line 73). -/
def effStatus (e : JsError) : Option Nat :=
  jsOrNum e.nestedCode e.statusField

/-- `error?.error?.message || error?.message || ''` (geminiService.ts line 74). -/
def effMessage (e : JsError) : List Char :=
  jsOrStr e.nestedMessage (jsOrStr e.messageField [])

/-- JS `\w` character class: `[A-Za-z0-9_]`. -/
def isWordChar (ch : Char) : Bool :=
  ch.isAlphanum || ch = '_'

/-- The data-URL validation regex `^data:(image\/\w+);base64,(.*)$` used at the
top of both `generateCharacterImage` (line 108) and `detectGender` (line 174).
Returns the two capture groups (mime word part, base64 payload) on a match.
JS `.` does not match line terminators, hence the payload check. -/
def parseDataUrl (s : List Char) : Option (List Char × List Char) :=
  if "data:image/".toList <+: s then
    let rest := s.drop ("data:image/".toList.length)
    let mimeWord := rest.takeWhile isWordChar
    let rest2 := rest.drop mimeWord.length
    if mimeWord ≠ [] ∧ ";base64,".toList <+: rest2 then
      let payload := rest2.drop (";base64,".toList.length)
      if payload.all (fun ch => ch ≠ '\n' ∧ ch ≠ '\r') then
        some ("image/".toList ++ mimeWord, payload)
      else none
    else none
  else none

/-- JS `String.prototype.trim`. -/
def jsTrim (s : List Char) : List Char :=
  ((s.dropWhile Char.isWhitespace).reverse.dropWhile Char.isWhitespace).reverse

/-- Normalization of a successful classification reply
(geminiService.ts lines 193-202): lowercase/trim the free text, then test
`includes('male')` first and `includes('female')` second. -/
def detectGenderNormalize (text : List Char) : Gender :=
  let resultText := (jsTrim text).map Char.toLower
  if "male".toList <:+: resultText then Gender.male
  else if "female".toList <:+: resultText then Gender.female
  else Gender.unknown

/-- `detectGender` (geminiService.ts lines 173-208).  `call` is the outcome of
the retry-wrapped remote classification call: on success it carries
`response.text` (`none` models a response with no text field, whose `.trim()`
raises a TypeError inside the `try` and is caught like a transport error).
Returns the outcome (`Except` error = thrown) and the number of remote calls
issued. -/
def detectGender (imageDataUrl : List Char)
    (call : Except JsError (Option (List Char))) :
    Except (List Char) Gender × Nat :=
  match parseDataUrl imageDataUrl with
  | none => (Except.error "Invalid image data URL format for gender detection.".toList, 0)
  | some _ =>
    match call with
    | Except.ok (some t) => (Except.ok (detectGenderNormalize t), 1)
    | Except.ok none => (Except.ok Gender.unknown, 1)
    | Except.error _ => (Except.ok Gender.unknown, 1)

/-! ### The retry policy (`withRetry`, geminiService.ts lines 62-97) -/

/-- `maxRetries` (line 63). -/
def maxRetries : Nat := 3

/-- `initialDelay` in milliseconds (line 64). -/
def initialDelay : Nat := 1000

/-- Retriability classification (line 77): status code 500 or 503, or a
message containing `'internal'` case-insensitively. -/
def isRetriable (e : JsError) : Bool :=
  (effStatus e = some 500 || effStatus e = some 503)
    || decide ("internal".toList <:+: (effMessage e).map Char.toLower)

/-- The re-throw at lines 88-92: an `Error` instance is re-thrown as is, any
other value is wrapped (`stringify` models `JSON.stringify`). -/
def rethrow (stringify : JsError → List Char) (e : JsError) : JsError :=
  if e.isErrorInstance then e
  else mkError ("Gemini API call failed: ".toList ++ jsOrStr (some (effMessage e)) (stringify e))

/-- Observable outcome of one `withRetry` run: the value returned or error
thrown, the number of attempts issued, and the backoff delays slept (in ms,
in order) between consecutive attempts. -/
structure RetryOut (T : Type) where
  result : Except JsError T
  attempts : Nat
  delays : List Nat
deriving Repr

/-- The `for` loop of `withRetry` from a given attempt number, with fuel
`maxRetries - attempt + 1`.  `calls n` is the outcome of the n-th remote
attempt; `jitter n` is the value of `Math.random() * 1000` sampled before
attempt `n + 1`.  The fuel-0 branch is the "should be unreachable" final
throw at line 96. -/
def withRetryFrom {T : Type} (calls : Nat → Except JsError T) (jitter : Nat → Nat)
    (stringify : JsError → List Char) : Nat → Nat → RetryOut T
  | _, 0 => ⟨Except.error (mkError "Gemini API call failed after all retries.".toList), 0, []⟩
  | attempt, fuel + 1 =>
    match calls attempt with
    | Except.ok v => ⟨Except.ok v, 1, []⟩
    | Except.error e =>
      if isRetriable e && decide (attempt < maxRetries) then
        let delay := initialDelay * 2 ^ (attempt - 1) + jitter attempt
        let rest := withRetryFrom calls jitter stringify (attempt + 1) fuel
        ⟨rest.result, rest.attempts + 1, delay :: rest.delays⟩
      else ⟨Except.error (rethrow stringify e), 1, []⟩

/-- `withRetry` (geminiService.ts lines 62-97): the loop starting at
attempt 1. -/
def withRetry {T : Type} (calls : Nat → Except JsError T) (jitter : Nat → Nat)
    (stringify : JsError → List Char) : RetryOut T :=
  withRetryFrom calls jitter stringify 1 maxRetries

/-! ### `generateCharacterImage` (geminiService.ts lines 100-166) -/

/-- The fixed marker the fallback extraction looks for, regex
`wearing the iconic PUBG outfit: "(.*?)"` (line 34): everything before the
capture group, including the opening double quote. -/
def marker : List Char := "wearing the iconic PUBG outfit: \"".toList

/-- The non-greedy capture `(.*?)` followed by the closing `"`: the characters
up to the first `"`. JS `.` matches neither `\n` nor `\r`, so a line break
before the closing quote makes the whole regex fail. -/
def takeUntilQuote : List Char → Option (List Char)
  | [] => none
  | c :: cs =>
    if c = '"' then some []
    else if c = '\n' ∨ c = '\r' then none
    else (takeUntilQuote cs).map (fun x => c :: x)

/-- Scan for the first occurrence of `marker`; on a hit return the remaining
characters after it. -/
def findMarker : List Char → Option (List Char)
  | [] => none
  | c :: cs =>
    if marker <+: (c :: cs) then some ((c :: cs).drop marker.length)
    else findMarker cs

/-- `extractCharacter` (lines 33-36): the outfit label captured by the marker
regex, or `none` when the prompt does not match. -/
def extractCharacter (prompt : List Char) : Option (List Char) :=
  (findMarker prompt).bind takeUntilQuote

/-- Fixed text of `getFallbackPrompt` before the interpolated outfit label. -/
def fallbackPre : List Char :=
  "Create a photorealistic image of the person in this photo wearing the PUBG outfit \"".toList

/-- Fixed text of `getFallbackPrompt` after the interpolated outfit label. -/
def fallbackPost : List Char :=
  "\". CRITICAL: The character\x27s face must be clearly visible and UNCOVERED by any helmets or masks. Their face must keep the original facial features from the photo. The image should show them in a dynamic action pose within a battle royale setting. Ensure the final image is a clear photograph that looks authentic.".toList

/-- `getFallbackPrompt` (lines 24-26). -/
def getFallbackPrompt (character : List Char) : List Char :=
  fallbackPre ++ character ++ fallbackPost

/-- An inline-data part of a remote response. -/
structure InlineData where
  mimeType : List Char
  data : List Char
deriving DecidableEq, Repr

/-- One part of `response.candidates[0].content.parts`. -/
structure RespPart where
  inlineData : Option InlineData
deriving DecidableEq, Repr

/-- A remote generation response: `candidates?.[0]?.content?.parts` (collapsed
into one optional list) and `response.text`. -/
structure GenResponse where
  parts : Option (List RespPart)
  text : Option (List Char)
deriving DecidableEq, Repr

/-- Message of the content-policy rejection error thrown by
`processGeminiResponse` (line 53); `text || 'No text response received.'`. -/
def noImageMsg (text : Option (List Char)) : List Char :=
  "The AI model responded with text instead of an image: \"".toList
    ++ jsOrStr text "No text response received.".toList ++ ['"']

/-- `processGeminiResponse` (lines 43-54): return a data URL built from the
first part carrying inline data, else throw the text-rejection error. -/
def processGeminiResponse (r : GenResponse) : Except JsError (List Char) :=
  match (r.parts.getD []).findSome? (fun p => p.inlineData) with
  | some d => Except.ok ("data:".toList ++ d.mimeType ++ ";base64,".toList ++ d.data)
  | none => Except.error (mkError (noImageMsg r.text))

/-- One retry-wrapped generation attempt followed by response processing
(the `withRetry(...)` + `processGeminiResponse` pairs at lines 122-129 and
147-154).  `remote p` is the outcome, after the retry policy, of the remote
call issued with prompt text `p` (the attached image part is fixed for the
whole invocation). -/
def attemptOnce (remote : List Char → Except JsError GenResponse)
    (prompt : List Char) : Except JsError (List Char) :=
  match remote prompt with
  | Except.error e => Except.error e
  | Except.ok resp => processGeminiResponse resp

/-- The substring `isNoImageError` tests for (line 132). -/
def noImageMark : List Char :=
  "The AI model responded with text instead of an image".toList

/-- `error instanceof Error ? error.message : JSON.stringify(error)`
(line 131); also used for `String(fallbackError)` at line 157 with the
appropriate oracle. -/
def errMsgOf (stringify : JsError → List Char) (e : JsError) : List Char :=
  if e.isErrorInstance then e.messageField.getD [] else stringify e

/-- `generateCharacterImage` (lines 107-166).  Returns the outcome (`Except`
error = thrown) together with the list of prompt texts for which a remote
generation request was issued, in order.  `stringify` models
`JSON.stringify`, `toString` models `String(...)`. -/
def generateCharacterImage (imageDataUrl prompt : List Char)
    (remote : List Char → Except JsError GenResponse)
    (stringify toString : JsError → List Char) :
    Except JsError (List Char) × List (List Char) :=
  match parseDataUrl imageDataUrl with
  | none =>
    (Except.error (mkError "Invalid image data URL format. Expected \x27data:image/...;base64,...\x27".toList), [])
  | some _ =>
    match attemptOnce remote prompt with
    | Except.ok url => (Except.ok url, [prompt])
    | Except.error err =>
      let errorMessage := errMsgOf stringify err
      if noImageMark <:+: errorMessage then
        match extractCharacter prompt with
        | none => (Except.error err, [prompt])
        | some character =>
          let fallbackPrompt := getFallbackPrompt character
          match attemptOnce remote fallbackPrompt with
          | Except.ok url => (Except.ok url, [prompt, fallbackPrompt])
          | Except.error fallbackError =>
            let finalErrorMessage := errMsgOf toString fallbackError
            (Except.error (mkError
              ("The AI model failed with both original and fallback prompts. Last error: ".toList
                ++ finalErrorMessage)), [prompt, fallbackPrompt])
      else
        (Except.error (mkError
          ("The AI model failed to generate an image. Details: ".toList ++ errorMessage)),
         [prompt])

/-! ### The generation scheduler (`handleGenerateClick`, App.tsx lines 202-247)

`handleGenerateClick` marks every item `pending`, copies the item list into a
shared FIFO queue (`itemsQueue`), and starts `concurrencyLimit = 2` async
workers; each worker repeatedly `shift`s one item off the queue and awaits
`processItem` on it, which ends by publishing `done` or `error` for that
item's label.  In the browser's single-threaded event loop the `shift` is
atomic; the visible interleaving points are the awaited remote calls.  The
model below is the induced labelled transition system: tasks are identified
by their queue position, a worker is `none` (idle, about to test the queue)
or `some t` (awaiting `processItem t`), and a `resolve` step carries the
success/failure outcome of the remote call. -/

/-- Per-label UI status (`ImageStatus` in App.tsx line 75). -/
inductive Status where
  | pending
  | done
  | error
deriving DecidableEq, Repr

/-- A scheduler configuration: the remaining FIFO queue, the per-worker
in-flight task, the per-task status map, and the log of dequeues in order. -/
structure SchedState where
  queue : List Nat
  workers : List (Option Nat)
  statuses : List (Nat × Status)
  dequeued : List Nat
deriving DecidableEq, Repr

/-- The `setGeneratedImages` update for an existing key: map the assoc list,
replacing the value at key `t`. -/
def setStatus (l : List (Nat × Status)) (t : Nat) (v : Status) : List (Nat × Status) :=
  l.map (fun p => if p.1 = t then (t, v) else p)

/-- One event-loop step of the worker pool: an idle worker atomically
`shift`s the head of the queue, or an in-flight task resolves (successfully
or not) and its worker publishes the terminal status and goes back to the
queue. -/
inductive SchedStep : SchedState → SchedState → Prop where
  | dequeue (s : SchedState) (i t : Nat) (rest : List Nat)
      (hq : s.queue = t :: rest) (hw : s.workers[i]? = some none) :
      SchedStep s ⟨rest, s.workers.set i (some t), s.statuses, s.dequeued ++ [t]⟩
  | resolve (s : SchedState) (i t : Nat) (ok : Bool)
      (hw : s.workers[i]? = some (some t)) :
      SchedStep s ⟨s.queue, s.workers.set i none,
        setStatus s.statuses t (if ok then Status.done else Status.error),
        s.dequeued⟩

/-- The state `handleGenerateClick` sets up before starting the workers:
FIFO queue = the input sequence, `concurrency` idle workers, every task
published as `pending`. -/
def initState (tasks : List Nat) (concurrency : Nat) : SchedState :=
  ⟨tasks, List.replicate concurrency none, tasks.map (fun t => (t, Status.pending)), []⟩

/-- Reachability through scheduler steps. -/
inductive SchedReach (s0 : SchedState) : SchedState → Prop where
  | refl : SchedReach s0 s0
  | tail {s s' : SchedState} : SchedReach s0 s → SchedStep s s' → SchedReach s0 s'

/-! ### Single-task regeneration (`handleRegenerateCharacter`, App.tsx lines 249-284) -/

/-- Per-label generation result (`GeneratedImage`, App.tsx lines 76-80). -/
inductive GenStatus where
  | pending
  | done (url : List Char)
  | error (msg : List Char)
deriving DecidableEq, Repr

/-- `GenerationItem` (App.tsx lines 82-86). -/
structure GenItem where
  character : List Char
  map : List Char
  scenario : List Char
deriving DecidableEq, Repr

/-- The slice of App component state `handleRegenerateCharacter` reads and
writes.  `generatedImages` is the JS object keyed by character label,
modelled as an assoc list in insertion order. -/
structure AppState where
  uploadedImage : Option (List Char)
  generationItems : List GenItem
  generatedImages : List (List Char × GenStatus)
deriving DecidableEq, Repr

/-- JS object spread update `{...prev, [k]: v}`: replace in place when the
key exists, append otherwise. -/
def setEntry (l : List (List Char × GenStatus)) (k : List Char) (v : GenStatus) :
    List (List Char × GenStatus) :=
  if (l.lookup k).isSome then l.map (fun p => if p.1 = k then (k, v) else p)
  else l ++ [(k, v)]

/-- `handleRegenerateCharacter` (App.tsx lines 249-284).  `outcome` is the
result of the (retry- and fallback-wrapped) `generateCharacterImage` call.
Returns the new state and the number of generation calls issued. -/
def handleRegenerateCharacter (st : AppState) (character : List Char)
    (outcome : Except (List Char) (List Char)) : AppState × Nat :=
  match st.uploadedImage with
  | none => (st, 0)
  | some _ =>
    match st.generationItems.find? (fun it => it.character == character) with
    | none => (st, 0)
    | some _ =>
      if st.generatedImages.lookup character = some GenStatus.pending then (st, 0)
      else
        let st1 : AppState :=
          { st with generatedImages := setEntry st.generatedImages character GenStatus.pending }
        match outcome with
        | Except.ok url =>
          ({ st1 with generatedImages := setEntry st1.generatedImages character (GenStatus.done url) }, 1)
        | Except.error msg =>
          ({ st1 with generatedImages := setEntry st1.generatedImages character (GenStatus.error msg) }, 1)

/-! ### The album compositor (`createAlbumPage`, src/unnamed/part_000 lines 22-157)

Canvas 2D calls are recorded as draw operations; per-card operations are in
the card's local coordinate frame (the context is translated to the card
center and rotated before they are issued), so each card record carries its
center translation (`x`, `y` = top-left corner of the card, as in the
source) and rotation.  `rotOracle k` models the `Math.random()`-based
rotation sampled for the k-th card painted. -/

/-- A decoded raster as the compositor sees it (`HTMLImageElement`). -/
structure ImgData where
  naturalWidth : ℚ
  naturalHeight : ℚ
deriving DecidableEq, Repr

/-- A recorded canvas drawing operation. -/
inductive DrawOp where
  | fillRectOp (x y w h : ℚ)
  | strokeRectOp (x y w h : ℚ)
  | drawImageOp (img : ImgData) (x y w h : ℚ)
  | fillTextOp (text : List Char) (x y : ℚ)
deriving DecidableEq, Repr

/-- One player card as painted: its label, the forward input index the grid
position is computed from, the grid cell, the card's top-left corner, the
sampled rotation, and the local-frame draw operations in order. -/
structure CardDraw where
  character : List Char
  srcIndex : Nat
  row : Nat
  col : Nat
  x : ℚ
  y : ℚ
  rotation : ℚ
  ops : List DrawOp
deriving DecidableEq, Repr

/-- The composed album page: the fixed canvas dimensions, the header
operations, and the cards in the order they are painted. -/
structure AlbumPage where
  width : Nat
  height : Nat
  headerOps : List DrawOp
  cards : List CardDraw
deriving DecidableEq, Repr

/-- `createAlbumPage` (src/unnamed/part_000 lines 22-157). -/
def createAlbumPage (imageData : List (List Char × ImgData)) (rotOracle : Nat → ℚ) :
    AlbumPage :=
  let canvasWidth : ℚ := 2480
  let canvasHeight : ℚ := 3508
  let headerOps : List DrawOp :=
    [DrawOp.fillRectOp 0 0 canvasWidth canvasHeight,
     DrawOp.fillTextOp "PUBG LOBBY".toList (canvasWidth / 2) 160,
     DrawOp.fillTextOp "Generated on Google AI Studio".toList (canvasWidth / 2) 230]
  let characters := imageData.map Prod.fst
  let loadedImages := imageData.map Prod.snd
  let imagesWithCharacters := List.zip characters loadedImages
  let gridCols : Nat := 2
  let gridRows : Nat := 3
  let padding : ℚ := 100
  let contentTopMargin : ℚ := 300
  let contentHeight := canvasHeight - contentTopMargin
  let cellWidth := (canvasWidth - padding * ((gridCols : ℚ) + 1)) / (gridCols : ℚ)
  let cellHeight := (contentHeight - padding * ((gridRows : ℚ) + 1)) / (gridRows : ℚ)
  let cardAspectRatio : ℚ := 125 / 100
  let maxCardWidth := cellWidth * (9 / 10)
  let maxCardHeight := cellHeight * (9 / 10)
  let cardWidth0 := maxCardWidth
  let cardHeight0 := cardWidth0 * cardAspectRatio
  let cardWidth := if cardHeight0 > maxCardHeight then maxCardHeight / cardAspectRatio else cardWidth0
  let cardHeight := if cardHeight0 > maxCardHeight then maxCardHeight else cardHeight0
  let imageContainerWidth := cardWidth * (9 / 10)
  let imageContainerHeight := imageContainerWidth * (11 / 10)
  let reversedImages := imagesWithCharacters.reverse
  let cards := reversedImages.enum.map (fun (p : Nat × (List Char × ImgData)) =>
    let reversedIndex := p.1
    let character := p.2.1
    let img := p.2.2
    let index := imagesWithCharacters.length - 1 - reversedIndex
    let row := index / gridCols
    let col := index % gridCols
    let x := padding * ((col : ℚ) + 1) + cellWidth * (col : ℚ) + (cellWidth - cardWidth) / 2
    let y := contentTopMargin + padding * ((row : ℚ) + 1) + cellHeight * (row : ℚ)
      + (cellHeight - cardHeight) / 2
    let rotation := rotOracle reversedIndex
    let aspectRatio := img.naturalWidth / img.naturalHeight
    let drawWidth0 := imageContainerWidth
    let drawHeight0 := drawWidth0 / aspectRatio
    let drawWidth := if drawHeight0 > imageContainerHeight then imageContainerHeight * aspectRatio else drawWidth0
    let drawHeight := if drawHeight0 > imageContainerHeight then imageContainerHeight else drawHeight0
    let imageAreaTopMargin := (cardWidth - imageContainerWidth) / (25 / 10)
    let imageContainerY := -(cardHeight / 2) + imageAreaTopMargin
    let imgX := -(drawWidth / 2)
    let imgY := imageContainerY + (imageContainerHeight - drawHeight) / 2
    let captionAreaTop := imageContainerY + imageContainerHeight
    let captionAreaBottom := cardHeight / 2
    let captionY := captionAreaTop + (captionAreaBottom - captionAreaTop) / 2
    ({ character := character, srcIndex := index, row := row, col := col,
       x := x, y := y, rotation := rotation,
       ops := [DrawOp.fillRectOp (-(cardWidth / 2)) (-(cardHeight / 2)) cardWidth cardHeight,
               DrawOp.strokeRectOp (-(cardWidth / 2)) (-(cardHeight / 2)) cardWidth cardHeight,
               DrawOp.drawImageOp img imgX imgY drawWidth drawHeight,
               DrawOp.fillTextOp character 0 captionY] } : CardDraw))
  { width := 2480, height := 3508, headerOps := headerOps, cards := cards }

/-! ### Derived definitions and concrete fixtures -/

/-- A concrete state whose only label is `Pending`, for the C7 witness. -/
def c7State : AppState :=
  { uploadedImage := some "data:image/png;base64,AAA".toList,
    generationItems := [⟨"A".toList, "Erangel".toList, "looting".toList⟩],
    generatedImages := [("A".toList, GenStatus.pending)] }

/-- `fallbackPre` without its final double quote. -/
def fallbackPreBody : List Char :=
  "Create a photorealistic image of the person in this photo wearing the PUBG outfit ".toList

/-- `marker` without its final double quote. -/
def markerBody : List Char := "wearing the iconic PUBG outfit: ".toList

/-- `fallbackPost` without its leading double quote. -/
def fallbackPostBody : List Char :=
  ". CRITICAL: The character\x27s face must be clearly visible and UNCOVERED by any helmets or masks. Their face must keep the original facial features from the photo. The image should show them in a dynamic action pose within a battle royale setting. Ensure the final image is a clear photograph that looks authentic.".toList

/-- Input image for the C4/C5 concrete runs. -/
def cimgDataUrl : List Char := "data:image/png;base64,AAA".toList

/-- Primary prompt for the C4/C5 concrete runs: carries the marker with
label `X`. -/
def cimgPrompt : List Char := "wearing the iconic PUBG outfit: \"X\"".toList

/-- Remote oracle for the C4/C5 concrete runs: the primary prompt gets a
text-only response (`ALPHA`), any other prompt fails with a terminal
`BETA` transport error. -/
def cimgRemote (p : List Char) : Except JsError GenResponse :=
  if p = cimgPrompt then Except.ok { parts := some [], text := some "ALPHA".toList }
  else Except.error (mkError "BETA".toList)

/-- Four concrete labeled images of varying aspect ratios, for the C8
witness. -/
def cAlbumInput : List (List Char × ImgData) :=
  [("A".toList, ⟨100, 200⟩), ("B".toList, ⟨300, 100⟩),
   ("C".toList, ⟨50, 50⟩), ("D".toList, ⟨400, 100⟩)]

/-- Status lookup in the per-label map (JS object property access). -/
def statusOf : List (Nat × Status) → Nat → Option Status
  | [], _ => none
  | (k, v) :: rest, t => if t = k then some v else statusOf rest t

/-- Invariant of the worker pool, relative to the initial task list and the
concurrency limit: the worker count never changes, the dequeue log followed
by the remaining queue is exactly the input sequence, the status map keys
are the input tasks, and a still-`pending` task is still queued or held by
some worker. -/
structure SchedInv (tasks : List Nat) (conc : Nat) (s : SchedState) : Prop where
  wlen : s.workers.length = conc
  fifo : tasks = s.dequeued ++ s.queue
  keys : s.statuses.map Prod.fst = tasks
  pend : ∀ t ∈ tasks, statusOf s.statuses t = some Status.pending →
    t ∈ s.queue ∨ ∃ i : Nat, s.workers[i]? = some (some t)

/-- Final state of a concrete full run for the C1 witness (task 0 failed,
the others succeeded). -/
def c1Final : SchedState :=
  ⟨[], [none, none],
   [(0, Status.error), (1, Status.done), (2, Status.done), (3, Status.done)],
   [0, 1, 2, 3]⟩

/-! ## Theorems -/

/-- C2: the classifier checks `includes('male')` before `includes('female')`
and `"female"` contains `"male"`, so a reply of `"Female"` is classified
`Male` and the `Female` branch is unreachable: no reply at all can ever be
classified `Female`. -/
theorem detectGender_female_branch_dead :
    detectGenderNormalize "Female".toList = Gender.male
      ∧ ∀ t : List Char, detectGenderNormalize t ≠ Gender.female := by
  refine ⟨by decide, fun t h => ?_⟩
  have hd : detectGenderNormalize t =
      (if "male".toList <:+: (jsTrim t).map Char.toLower then Gender.male
       else if "female".toList <:+: (jsTrim t).map Char.toLower then Gender.female
       else Gender.unknown) := rfl
  rw [hd] at h
  split at h
  · exact Gender.noConfusion h
  · split at h
    · rename_i hm hf
      exact hm (List.IsInfix.trans
        (by decide : ['m', 'a', 'l', 'e'] <:+: ['f', 'e', 'm', 'a', 'l', 'e']) hf)
    · exact Gender.noConfusion h

/-- C7: regenerating a label whose current status is `Pending` is an
idempotent no-op — the state is unchanged and no generation call is
issued. -/
theorem handleRegenerate_pending_noop (st : AppState) (character : List Char)
    (outcome : Except (List Char) (List Char))
    (h : st.generatedImages.lookup character = some GenStatus.pending) :
    handleRegenerateCharacter st character outcome = (st, 0) := by
  unfold handleRegenerateCharacter
  cases hu : st.uploadedImage with
  | none => rfl
  | some img =>
    cases hf : st.generationItems.find? (fun it => it.character == character) with
    | none => rfl
    | some it => simp [h]


/-- Witness for C7 at a concrete pending state. -/
theorem handleRegenerate_pending_noop_witness :
    handleRegenerateCharacter c7State "A".toList (Except.ok "url".toList) = (c7State, 0) :=
  handleRegenerate_pending_noop c7State "A".toList (Except.ok "url".toList) (by decide)

/-- C10: an input that fails the data-URL regex makes both
`generateCharacterImage` and `detectGender` throw their invalid-format
errors immediately, with zero remote calls issued. -/
theorem invalid_dataUrl_rejected_before_any_call (s prompt : List Char)
    (remote : List Char → Except JsError GenResponse)
    (stringify toString : JsError → List Char)
    (call : Except JsError (Option (List Char)))
    (h : parseDataUrl s = none) :
    generateCharacterImage s prompt remote stringify toString
        = (Except.error (mkError "Invalid image data URL format. Expected \x27data:image/...;base64,...\x27".toList), [])
      ∧ detectGender s call
        = (Except.error "Invalid image data URL format for gender detection.".toList, 0) := by
  constructor
  · unfold generateCharacterImage; rw [h]
  · unfold detectGender; rw [h]

/-- Witness for C10 at the concrete malformed input `"garbage"`. -/
theorem invalid_dataUrl_rejected_before_any_call_witness :
    generateCharacterImage "garbage".toList "p".toList
        (fun _ => Except.error (mkError [])) (fun _ => []) (fun _ => [])
        = (Except.error (mkError "Invalid image data URL format. Expected \x27data:image/...;base64,...\x27".toList), [])
      ∧ detectGender "garbage".toList (Except.ok (some "male".toList))
        = (Except.error "Invalid image data URL format for gender detection.".toList, 0) :=
  invalid_dataUrl_rejected_before_any_call "garbage".toList "p".toList
    (fun _ => Except.error (mkError [])) (fun _ => []) (fun _ => [])
    (Except.ok (some "male".toList)) (by decide)

/-- C6 counterexample: `detectGender` does throw for some input — the
malformed data URL `"garbage"` hits the validation throw outside the
`try`/`catch`, so the call propagates an error instead of returning a
gender. -/
theorem detectGender_throws_on_malformed_input :
    (detectGender "garbage".toList (Except.ok (some "male".toList))).1
      = Except.error "Invalid image data URL format for gender detection.".toList := rfl

/-- C6 amended: for every input that passes data-URL validation,
`detectGender` never propagates an error; in particular any transport
failure left after the retry policy is swallowed and yields `Unknown`. -/
theorem detectGender_never_fails_on_valid_input (s : List Char)
    (call : Except JsError (Option (List Char)))
    (h : (parseDataUrl s).isSome) :
    (∃ g, (detectGender s call).1 = Except.ok g)
      ∧ (∀ e, call = Except.error e → (detectGender s call).1 = Except.ok Gender.unknown) := by
  obtain ⟨v, hv⟩ := Option.isSome_iff_exists.mp h
  unfold detectGender
  rw [hv]
  cases call with
  | error e => exact ⟨⟨Gender.unknown, rfl⟩, fun _ _ => rfl⟩
  | ok t =>
    cases t with
    | none => exact ⟨⟨Gender.unknown, rfl⟩, fun e he => by cases he⟩
    | some txt => exact ⟨⟨detectGenderNormalize txt, rfl⟩, fun e he => by cases he⟩

/-- Witness for the amended C6 at a concrete valid input and a concrete
transport failure. -/
theorem detectGender_never_fails_on_valid_input_witness :
    (∃ g, (detectGender "data:image/png;base64,AAA".toList
        (Except.error (mkError "boom".toList))).1 = Except.ok g)
      ∧ (∀ e, (Except.error (mkError "boom".toList) : Except JsError (Option (List Char)))
            = Except.error e →
          (detectGender "data:image/png;base64,AAA".toList
            (Except.error (mkError "boom".toList))).1 = Except.ok Gender.unknown) :=
  detectGender_never_fails_on_valid_input "data:image/png;base64,AAA".toList
    (Except.error (mkError "boom".toList)) (by decide)

/-! ### Retry-policy lemmas (C3) -/

theorem withRetryFrom_attempts_le {T : Type} (calls : Nat → Except JsError T)
    (jitter : Nat → Nat) (stringify : JsError → List Char) :
    ∀ fuel attempt, (withRetryFrom calls jitter stringify attempt fuel).attempts ≤ fuel := by
  intro fuel
  induction fuel with
  | zero => intro a; exact Nat.le_refl 0
  | succ f ih =>
    intro a
    cases h : calls a with
    | ok v =>
      simp only [withRetryFrom, h]
      exact Nat.succ_le_succ (Nat.zero_le f)
    | error e =>
      simp only [withRetryFrom, h]
      by_cases hr : (isRetriable e && decide (a < maxRetries)) = true
      · rw [if_pos hr]
        exact Nat.succ_le_succ (ih (a + 1))
      · rw [if_neg hr]
        exact Nat.succ_le_succ (Nat.zero_le f)

theorem withRetryFrom_delays_length {T : Type} (calls : Nat → Except JsError T)
    (jitter : Nat → Nat) (stringify : JsError → List Char) :
    ∀ fuel attempt, 1 ≤ fuel → maxRetries < attempt + fuel →
      (withRetryFrom calls jitter stringify attempt fuel).delays.length + 1
        = (withRetryFrom calls jitter stringify attempt fuel).attempts := by
  intro fuel
  induction fuel with
  | zero => intro a h; omega
  | succ f ih =>
    intro a _ hbound
    cases h : calls a with
    | ok v =>
      simp only [withRetryFrom, h]
      rfl
    | error e =>
      simp only [withRetryFrom, h]
      by_cases hr : (isRetriable e && decide (a < maxRetries)) = true
      · rw [if_pos hr]
        have ha : a < maxRetries := of_decide_eq_true (Bool.and_elim_right hr)
        have hf1 : 1 ≤ f := by unfold maxRetries at ha hbound; omega
        have hrec := ih (a + 1) hf1 (by unfold maxRetries at hbound ⊢; omega)
        show ((initialDelay * 2 ^ (a - 1) + jitter a)
            :: (withRetryFrom calls jitter stringify (a + 1) f).delays).length + 1
          = (withRetryFrom calls jitter stringify (a + 1) f).attempts + 1
        rw [List.length_cons]
        omega
      · rw [if_neg hr]
        rfl

theorem withRetryFrom_delay_values {T : Type} (calls : Nat → Except JsError T)
    (jitter : Nat → Nat) (stringify : JsError → List Char) :
    ∀ fuel attempt, 1 ≤ attempt →
      ∀ k, k < (withRetryFrom calls jitter stringify attempt fuel).delays.length →
        (withRetryFrom calls jitter stringify attempt fuel).delays[k]?
          = some (initialDelay * 2 ^ (attempt + k - 1) + jitter (attempt + k)) := by
  intro fuel
  induction fuel with
  | zero =>
    intro a _ k hk
    simp only [withRetryFrom, List.length_nil] at hk
    omega
  | succ f ih =>
    intro a ha k hk
    rw [withRetryFrom] at hk ⊢
    cases h : calls a with
    | ok v =>
      simp only [h] at hk
      simp at hk
    | error e =>
      simp only [h] at hk ⊢
      by_cases hr : (isRetriable e && decide (a < maxRetries)) = true
      · rw [if_pos hr] at hk ⊢
        cases k with
        | zero => simp
        | succ k' =>
          simp only [List.length_cons, Nat.succ_lt_succ_iff] at hk
          simp only [List.getElem?_cons_succ]
          rw [ih (a + 1) (by omega) k' hk,
            show a + 1 + k' = a + (k' + 1) from by omega]
      · rw [if_neg hr] at hk
        simp at hk

theorem withRetryFrom_retried_retriable {T : Type} (calls : Nat → Except JsError T)
    (jitter : Nat → Nat) (stringify : JsError → List Char) :
    ∀ fuel attempt,
      ∀ a, attempt ≤ a →
        a + 1 < attempt + (withRetryFrom calls jitter stringify attempt fuel).attempts →
        ∃ e, calls a = Except.error e ∧ isRetriable e = true ∧ a < maxRetries := by
  intro fuel
  induction fuel with
  | zero => intro att a _ hlt; simp only [withRetryFrom] at hlt; omega
  | succ f ih =>
    intro att a hle hlt
    rw [withRetryFrom] at hlt
    cases h : calls att with
    | ok v =>
      simp only [h] at hlt
      have hlt' : a + 1 < att + 1 := hlt
      exact absurd hle (by omega)
    | error e =>
      simp only [h] at hlt
      by_cases hr : (isRetriable e && decide (att < maxRetries)) = true
      · rw [if_pos hr] at hlt
        have hlt' : a + 1 < att + ((withRetryFrom calls jitter stringify (att + 1) f).attempts + 1) := hlt
        rcases Nat.eq_or_lt_of_le hle with heq | hgt
        · exact ⟨e, heq ▸ h, Bool.and_elim_left hr,
            heq ▸ of_decide_eq_true (Bool.and_elim_right hr)⟩
        · exact ih (att + 1) a hgt (by omega)
      · rw [if_neg hr] at hlt
        have hlt' : a + 1 < att + 1 := hlt
        exact absurd hle (by omega)

/-- C3: the retry policy. For every run: at most 3 attempts; one fewer
backoff delay than attempts; the k-th delay (0-based, slept before attempt
k + 2) is exactly `1000 * 2^k` plus the sampled jitter, which lies in
[0, 1000) whenever the jitter source does; every non-final attempt failed
with a retriable error while attempts remained; and a non-retriable failure
of the first attempt gives exactly one attempt, no delays, and immediate
propagation of that (re-thrown) error. -/
theorem withRetry_policy {T : Type} (calls : Nat → Except JsError T)
    (jitter : Nat → Nat) (stringify : JsError → List Char)
    (hj : ∀ n, jitter n < 1000) :
    (withRetry calls jitter stringify).attempts ≤ 3
    ∧ (withRetry calls jitter stringify).delays.length + 1
        = (withRetry calls jitter stringify).attempts
    ∧ (∀ k, k < (withRetry calls jitter stringify).delays.length →
        (withRetry calls jitter stringify).delays[k]? = some (1000 * 2 ^ k + jitter (k + 1))
          ∧ jitter (k + 1) < 1000)
    ∧ (∀ a, 1 ≤ a → a + 1 ≤ (withRetry calls jitter stringify).attempts →
        ∃ e, calls a = Except.error e ∧ isRetriable e = true ∧ a < 3)
    ∧ (∀ e, calls 1 = Except.error e → isRetriable e = false →
        withRetry calls jitter stringify = ⟨Except.error (rethrow stringify e), 1, []⟩) := by
  have hw : withRetry calls jitter stringify = withRetryFrom calls jitter stringify 1 3 := rfl
  rw [hw]
  refine ⟨withRetryFrom_attempts_le calls jitter stringify 3 1,
    withRetryFrom_delays_length calls jitter stringify 3 1 (by omega) (by decide),
    fun k hk => ?_, fun a ha hlt => ?_, fun e he hnr => ?_⟩
  · have := withRetryFrom_delay_values calls jitter stringify 3 1 (by omega) k hk
    refine ⟨?_, hj (k + 1)⟩
    rw [this, show 1 + k - 1 = k from by omega, show 1 + k = k + 1 from by omega]
    rfl
  · have := withRetryFrom_retried_retriable calls jitter stringify 3 1 a ha (by omega)
    simpa [maxRetries] using this
  · rw [show (3 : Nat) = 2 + 1 from rfl, withRetryFrom]
    simp only [he]
    rw [if_neg (by simp [hnr])]

/-- Witness for C3: a call that succeeds on the first attempt, with zero
jitter. -/
theorem withRetry_policy_witness :
    (withRetry (fun _ => (Except.ok 0 : Except JsError Nat)) (fun _ => 0) (fun _ => [])).attempts ≤ 3
      ∧ (withRetry (fun _ => (Except.ok 0 : Except JsError Nat)) (fun _ => 0) (fun _ => [])).delays.length + 1
        = (withRetry (fun _ => (Except.ok 0 : Except JsError Nat)) (fun _ => 0) (fun _ => [])).attempts := by
  have h := withRetry_policy (fun _ => (Except.ok 0 : Except JsError Nat))
    (fun _ => 0) (fun _ => []) (fun _ => by norm_num)
  exact ⟨h.1, h.2.1⟩

/-! ### Marker-extraction lemmas (C4, C5) -/

theorem takeUntilQuote_eq_some (r x : List Char) (h : takeUntilQuote r = some x) :
    ∃ rest, r = x ++ '"' :: rest ∧ '"' ∉ x := by
  induction r generalizing x with
  | nil => simp [takeUntilQuote] at h
  | cons c cs ih =>
    rw [takeUntilQuote] at h
    by_cases hq : c = '"'
    · rw [if_pos hq] at h
      injection h with h'
      subst h'
      exact ⟨cs, by rw [hq]; rfl, by simp⟩
    · rw [if_neg hq] at h
      by_cases hn : c = '\n' ∨ c = '\r'
      · rw [if_pos hn] at h; cases h
      · rw [if_neg hn] at h
        cases hts : takeUntilQuote cs with
        | none => rw [hts] at h; cases h
        | some y =>
          rw [hts] at h
          injection h with h'
          subst h'
          obtain ⟨rest, hr, hnq⟩ := ih y hts
          refine ⟨rest, by rw [hr]; rfl, ?_⟩
          intro hm
          rcases List.mem_cons.mp hm with h1 | h2
          · exact hq h1.symm
          · exact hnq h2

theorem findMarker_eq_some (l r : List Char) (h : findMarker l = some r) :
    ∃ p, l = p ++ marker ++ r := by
  induction l generalizing r with
  | nil => simp [findMarker] at h
  | cons c cs ih =>
    rw [findMarker] at h
    by_cases hp : marker <+: (c :: cs)
    · rw [if_pos hp] at h
      injection h with h'
      obtain ⟨t, ht⟩ := hp
      refine ⟨[], ?_⟩
      rw [List.nil_append, ← h', ← ht, List.drop_left]
    · rw [if_neg hp] at h
      obtain ⟨p, hp'⟩ := ih r h
      exact ⟨c :: p, by rw [hp']; rfl⟩

theorem split_first_quote (u₁ : List Char) :
    ∀ u₂ v₁ v₂ : List Char, u₁ ++ '"' :: v₁ = u₂ ++ '"' :: v₂ →
      '"' ∉ u₁ → '"' ∉ u₂ → u₁ = u₂ ∧ v₁ = v₂ := by
  induction u₁ with
  | nil =>
    intro u₂ v₁ v₂ heq h1 h2
    cases u₂ with
    | nil => simpa using heq
    | cons d ds =>
      rw [List.nil_append] at heq
      injection heq with hd _
      exact absurd (by rw [hd]; exact List.mem_cons_self d ds) h2
  | cons c cs ih =>
    intro u₂ v₁ v₂ heq h1 h2
    cases u₂ with
    | nil =>
      rw [List.nil_append] at heq
      injection heq with hd _
      exact absurd (by rw [← hd]; exact List.mem_cons_self c cs) h1
    | cons d ds =>
      injection heq with hd htl
      have h1' : '"' ∉ cs := fun hm => h1 (List.mem_cons_of_mem c hm)
      have h2' : '"' ∉ ds := fun hm => h2 (List.mem_cons_of_mem d hm)
      obtain ⟨he, hv⟩ := ih ds v₁ v₂ htl h1' h2'
      exact ⟨by rw [hd, he], hv⟩

theorem extractCharacter_eq_some (p x : List Char) (h : extractCharacter p = some x) :
    ∃ pre rest, p = pre ++ marker ++ x ++ '"' :: rest ∧ '"' ∉ x := by
  unfold extractCharacter at h
  cases hf : findMarker p with
  | none => rw [hf] at h; cases h
  | some r =>
    rw [hf] at h
    have h' : takeUntilQuote r = some x := h
    obtain ⟨pre, hp⟩ := findMarker_eq_some p r hf
    obtain ⟨rest, hr, hnq⟩ := takeUntilQuote_eq_some r x h'
    refine ⟨pre, rest, ?_, hnq⟩
    rw [hp, hr]
    simp [List.append_assoc]

theorem marker_decomp : marker = markerBody ++ ['"'] := by decide

theorem fallbackPre_decomp : fallbackPre = fallbackPreBody ++ ['"'] := by decide

set_option maxRecDepth 8192 in
theorem fallbackPost_decomp : fallbackPost = '"' :: fallbackPostBody := by decide

set_option maxRecDepth 8192 in
/-- The fallback prompt itself never matches the marker regex: its only two
double quotes delimit the interpolated label, and the text before the first
quote does not end with the marker body. -/
theorem extract_fallback_none (c : List Char) (hq : '"' ∉ c) :
    extractCharacter (getFallbackPrompt c) = none := by
  cases hx : extractCharacter (getFallbackPrompt c) with
  | none => rfl
  | some x =>
    exfalso
    obtain ⟨pre, rest, hsplit, hxq⟩ := extractCharacter_eq_some _ x hx
    have hform : getFallbackPrompt c
        = fallbackPreBody ++ '"' :: (c ++ '"' :: fallbackPostBody) := by
      unfold getFallbackPrompt
      rw [fallbackPre_decomp, fallbackPost_decomp]
      simp [List.append_assoc]
    have hform2 : getFallbackPrompt c
        = (pre ++ markerBody) ++ '"' :: (x ++ '"' :: rest) := by
      rw [hsplit, marker_decomp]
      simp [List.append_assoc]
    have heq : (pre ++ markerBody) ++ '"' :: (x ++ '"' :: rest)
        = fallbackPreBody ++ '"' :: (c ++ '"' :: fallbackPostBody) := by
      rw [← hform2, hform]
    have hcnt := congrArg (fun l => l.count '"') heq
    simp only [List.count_append, List.count_cons_self] at hcnt
    have hc0 : c.count '"' = 0 := List.count_eq_zero.mpr hq
    have hx0 : x.count '"' = 0 := List.count_eq_zero.mpr hxq
    have hmb0 : markerBody.count '"' = 0 := by decide
    have hfb0 : fallbackPreBody.count '"' = 0 := by decide
    have hpb0 : fallbackPostBody.count '"' = 0 := by decide
    have hpre0 : pre.count '"' = 0 := by omega
    have hpreq : '"' ∉ pre := List.count_eq_zero.mp hpre0
    have hprem : '"' ∉ pre ++ markerBody := by
      intro hm
      rcases List.mem_append.mp hm with h1 | h2
      · exact hpreq h1
      · exact (List.count_eq_zero.mp hmb0) h2
    have hfbq : '"' ∉ fallbackPreBody := List.count_eq_zero.mp hfb0
    have hkey := split_first_quote (pre ++ markerBody) fallbackPreBody
      (x ++ '"' :: rest) (c ++ '"' :: fallbackPostBody) heq hprem hfbq
    have hsuf : markerBody <:+ fallbackPreBody := ⟨pre, hkey.1⟩
    exact absurd hsuf (by decide)

/-- A prompt that matches the marker regex is never equal to the fallback
prompt built from its own extracted label. -/
theorem fallback_ne_prompt (prompt c : List Char)
    (h : extractCharacter prompt = some c) : getFallbackPrompt c ≠ prompt := by
  intro he
  obtain ⟨_, _, _, hq⟩ := extractCharacter_eq_some prompt c h
  have hnone := extract_fallback_none c hq
  rw [he, h] at hnone
  cases hnone

/-- Evaluation of `generateCharacterImage` once the primary attempt has
failed with an error whose message carries the no-image mark. -/
theorem generateCharacterImage_eval_fallback (imageDataUrl prompt : List Char)
    (remote : List Char → Except JsError GenResponse)
    (stringify toString : JsError → List Char)
    (v : List Char × List Char) (hv : parseDataUrl imageDataUrl = some v)
    (e : JsError) (hfail : attemptOnce remote prompt = Except.error e)
    (hnoimg : noImageMark <:+: errMsgOf stringify e) :
    generateCharacterImage imageDataUrl prompt remote stringify toString
      = match extractCharacter prompt with
        | none => (Except.error e, [prompt])
        | some character =>
          match attemptOnce remote (getFallbackPrompt character) with
          | Except.ok url => (Except.ok url, [prompt, getFallbackPrompt character])
          | Except.error fallbackError =>
            (Except.error (mkError
              ("The AI model failed with both original and fallback prompts. Last error: ".toList
                ++ errMsgOf toString fallbackError)), [prompt, getFallbackPrompt character]) := by
  unfold generateCharacterImage
  simp only [hv, hfail]
  rw [if_pos hnoimg]

/-- C4: when the primary attempt is rejected with the text-only (no-image)
error, then — if the outfit label is extractable from the primary prompt —
exactly one fallback request is issued, with the fallback prompt, which
differs from the primary prompt; if the label is not extractable the
original rejection error is propagated with no fallback request; and in no
case are more than two requests issued (a rejected fallback triggers no
further fallback). -/
theorem generateCharacterImage_fallback_policy (imageDataUrl prompt : List Char)
    (remote : List Char → Except JsError GenResponse)
    (stringify toString : JsError → List Char)
    (hvalid : (parseDataUrl imageDataUrl).isSome)
    (e : JsError) (hfail : attemptOnce remote prompt = Except.error e)
    (hnoimg : noImageMark <:+: errMsgOf stringify e) :
    (∀ c, extractCharacter prompt = some c →
        (generateCharacterImage imageDataUrl prompt remote stringify toString).2
            = [prompt, getFallbackPrompt c]
          ∧ getFallbackPrompt c ≠ prompt)
    ∧ (extractCharacter prompt = none →
        generateCharacterImage imageDataUrl prompt remote stringify toString
          = (Except.error e, [prompt]))
    ∧ (generateCharacterImage imageDataUrl prompt remote stringify toString).2.length ≤ 2 := by
  obtain ⟨v, hv⟩ := Option.isSome_iff_exists.mp hvalid
  have heval := generateCharacterImage_eval_fallback imageDataUrl prompt remote
    stringify toString v hv e hfail hnoimg
  refine ⟨fun c hc => ?_, fun hc => ?_, ?_⟩
  · rw [heval]
    simp only [hc]
    refine ⟨?_, fallback_ne_prompt prompt c hc⟩
    cases attemptOnce remote (getFallbackPrompt c) with
    | ok url => rfl
    | error fe => rfl
  · rw [heval, hc]
  · rw [heval]
    cases hc : extractCharacter prompt with
    | none => simp
    | some c =>
      simp only
      cases attemptOnce remote (getFallbackPrompt c) with
      | ok url => simp
      | error fe => simp

/-- Witness for C4 at the concrete run: the fallback prompt is issued
exactly once after the primary rejection, and differs from the primary
prompt. -/
theorem generateCharacterImage_fallback_policy_witness :
    ((generateCharacterImage cimgDataUrl cimgPrompt cimgRemote (fun _ => []) (fun _ => [])).2
        = [cimgPrompt, getFallbackPrompt "X".toList]
      ∧ getFallbackPrompt "X".toList ≠ cimgPrompt)
    ∧ (generateCharacterImage cimgDataUrl cimgPrompt cimgRemote (fun _ => []) (fun _ => [])).2.length ≤ 2 := by
  have h := generateCharacterImage_fallback_policy cimgDataUrl cimgPrompt cimgRemote
    (fun _ => []) (fun _ => []) (by decide)
    (mkError (noImageMsg (some "ALPHA".toList))) rfl (by decide)
  exact ⟨h.1 "X".toList rfl, h.2.2⟩

set_option maxRecDepth 8192 in
/-- C5 counterexample: in the concrete run where the primary attempt is
rejected with message `...: "ALPHA"` and the fallback fails with message
`BETA`, the terminal combined failure carries only the fallback message —
the primary attempt's error message does not occur in it. -/
theorem generateCharacterImage_combined_error_drops_primary :
    (generateCharacterImage cimgDataUrl cimgPrompt cimgRemote (fun _ => []) (fun _ => [])).1
        = Except.error (mkError
            "The AI model failed with both original and fallback prompts. Last error: BETA".toList)
      ∧ ¬ (noImageMsg (some "ALPHA".toList)
            <:+: "The AI model failed with both original and fallback prompts. Last error: BETA".toList) :=
  ⟨rfl, by decide⟩

/-- C5 amended: when the fallback attempt also fails, the terminal failure
is a single combined error whose message states that both prompts failed
and embeds the fallback attempt's error message (the primary attempt's own
message is not included). -/
theorem generateCharacterImage_combined_error (imageDataUrl prompt : List Char)
    (remote : List Char → Except JsError GenResponse)
    (stringify toString : JsError → List Char)
    (hvalid : (parseDataUrl imageDataUrl).isSome)
    (e : JsError) (hfail : attemptOnce remote prompt = Except.error e)
    (hnoimg : noImageMark <:+: errMsgOf stringify e)
    (c : List Char) (hc : extractCharacter prompt = some c)
    (fe : JsError) (hfb : attemptOnce remote (getFallbackPrompt c) = Except.error fe) :
    generateCharacterImage imageDataUrl prompt remote stringify toString
      = (Except.error (mkError
          ("The AI model failed with both original and fallback prompts. Last error: ".toList
            ++ errMsgOf toString fe)), [prompt, getFallbackPrompt c]) := by
  obtain ⟨v, hv⟩ := Option.isSome_iff_exists.mp hvalid
  rw [generateCharacterImage_eval_fallback imageDataUrl prompt remote
    stringify toString v hv e hfail hnoimg]
  simp only [hc, hfb]

/-- Witness for the amended C5 at the concrete run. -/
theorem generateCharacterImage_combined_error_witness :
    generateCharacterImage cimgDataUrl cimgPrompt cimgRemote (fun _ => []) (fun _ => [])
      = (Except.error (mkError
          ("The AI model failed with both original and fallback prompts. Last error: ".toList
            ++ errMsgOf (fun _ => []) (mkError "BETA".toList))),
         [cimgPrompt, getFallbackPrompt "X".toList]) :=
  generateCharacterImage_combined_error cimgDataUrl cimgPrompt cimgRemote
    (fun _ => []) (fun _ => []) (by decide)
    (mkError (noImageMsg (some "ALPHA".toList))) rfl (by decide)
    "X".toList rfl (mkError "BETA".toList) rfl

/-! ### Compositor lemmas (C8, C9) -/

theorem zip_map_fst_snd' {α β : Type} (l : List (α × β)) :
    List.zip (l.map Prod.fst) (l.map Prod.snd) = l := by
  induction l with
  | nil => rfl
  | cons a t ih => simp [List.zip, ih]

theorem range_reverse_eq_map (n : Nat) :
    (List.range n).reverse = (List.range n).map (fun i => n - 1 - i) := by
  rw [List.range_eq_range', List.reverse_range']
  simp [← List.range_eq_range']

/-- The paint order of the cards: forward indices visited from last to
first. -/
theorem albumPage_cards_srcIndex (imageData : List (List Char × ImgData)) (rot : Nat → ℚ) :
    (createAlbumPage imageData rot).cards.map (fun c => c.srcIndex)
      = (List.range imageData.length).reverse := by
  have h3 : ((createAlbumPage imageData rot).cards.map (fun c => c.srcIndex))
      = (imageData.reverse.enum).map
        (fun p : Nat × (List Char × ImgData) => imageData.length - 1 - p.1) := by
    simp only [createAlbumPage, zip_map_fst_snd']
    rw [List.map_map]
    rfl
  have h2 : (imageData.reverse.enum).map
        (fun p : Nat × (List Char × ImgData) => imageData.length - 1 - p.1)
      = ((imageData.reverse.enum).map Prod.fst).map
        (fun i => imageData.length - 1 - i) := by
    rw [List.map_map]
    rfl
  rw [h3, h2, List.enum_map_fst, List.length_reverse, ← range_reverse_eq_map]

/-- Every painted card's grid cell comes from its forward source index, and
its caption is drawn in its operation list. -/
theorem albumPage_cards_fields (imageData : List (List Char × ImgData)) (rot : Nat → ℚ) :
    ∀ card ∈ (createAlbumPage imageData rot).cards,
      card.row = card.srcIndex / 2 ∧ card.col = card.srcIndex % 2
        ∧ ∃ y, DrawOp.fillTextOp card.character 0 y ∈ card.ops := by
  intro card hc
  simp only [createAlbumPage, zip_map_fst_snd'] at hc
  obtain ⟨p, hp, rfl⟩ := List.mem_map.mp hc
  exact ⟨rfl, rfl, _,
    List.mem_cons_of_mem _ (List.mem_cons_of_mem _ (List.mem_cons_of_mem _
      (List.mem_cons_self _ _)))⟩

/-- The painted card labels are the input labels, reversed. -/
theorem albumPage_cards_characters (imageData : List (List Char × ImgData)) (rot : Nat → ℚ) :
    (createAlbumPage imageData rot).cards.map (fun c => c.character)
      = (imageData.map Prod.fst).reverse := by
  have h3 : ((createAlbumPage imageData rot).cards.map (fun c => c.character))
      = (imageData.reverse.enum).map
        (fun p : Nat × (List Char × ImgData) => p.2.1) := by
    simp only [createAlbumPage, zip_map_fst_snd']
    rw [List.map_map]
    rfl
  have h2 : (imageData.reverse.enum).map
        (fun p : Nat × (List Char × ImgData) => p.2.1)
      = ((imageData.reverse.enum).map Prod.snd).map Prod.fst := by
    rw [List.map_map]
    rfl
  rw [h3, h2, List.enum_map_snd, List.map_reverse]

/-- C9: the compositor paints the cards in reverse input order — the painted
sequence of forward source indices is `n-1, …, 1, 0` — while each card's
grid cell is still computed from its forward index (`row = i / 2`,
`col = i % 2`). -/
theorem createAlbumPage_paint_order (imageData : List (List Char × ImgData)) (rot : Nat → ℚ) :
    (createAlbumPage imageData rot).cards.map (fun c => c.srcIndex)
        = (List.range imageData.length).reverse
      ∧ ∀ card ∈ (createAlbumPage imageData rot).cards,
          card.row = card.srcIndex / 2 ∧ card.col = card.srcIndex % 2 :=
  ⟨albumPage_cards_srcIndex imageData rot,
    fun card hc => ⟨(albumPage_cards_fields imageData rot card hc).1,
      (albumPage_cards_fields imageData rot card hc).2.1⟩⟩

/-- C8: on four labeled images of arbitrary aspect ratios the composed page
has the fixed 2480 × 3508 canvas, every input label's caption is drawn on
its card, and the cards occupy pairwise distinct grid cells (cell =
(`i / 2`, `i % 2`) of the forward index). -/
theorem createAlbumPage_four_images (imageData : List (List Char × ImgData)) (rot : Nat → ℚ)
    (h4 : imageData.length = 4) :
    (createAlbumPage imageData rot).width = 2480
    ∧ (createAlbumPage imageData rot).height = 3508
    ∧ (∀ ch ∈ imageData.map Prod.fst, ∃ card ∈ (createAlbumPage imageData rot).cards,
        card.character = ch ∧ ∃ x y, DrawOp.fillTextOp ch x y ∈ card.ops)
    ∧ List.Pairwise (fun a b : CardDraw => (a.row, a.col) ≠ (b.row, b.col))
        (createAlbumPage imageData rot).cards := by
  refine ⟨rfl, rfl, fun ch hch => ?_, ?_⟩
  · have hrev : ch ∈ (imageData.map Prod.fst).reverse := List.mem_reverse.mpr hch
    rw [← albumPage_cards_characters imageData rot] at hrev
    obtain ⟨card, hcard, hcc⟩ := List.mem_map.mp hrev
    obtain ⟨y, hy⟩ := (albumPage_cards_fields imageData rot card hcard).2.2
    exact ⟨card, hcard, hcc, 0, y, hcc ▸ hy⟩
  · have hnd : ((createAlbumPage imageData rot).cards.map (fun c => c.srcIndex)).Nodup := by
      rw [albumPage_cards_srcIndex imageData rot]
      exact (List.nodup_reverse).mpr (List.nodup_range _)
    have hpw : (createAlbumPage imageData rot).cards.Pairwise
        (fun a b => a.srcIndex ≠ b.srcIndex) := List.pairwise_map.mp hnd
    refine hpw.imp_of_mem ?_
    intro a b ha hb hne heq
    have hfa := albumPage_cards_fields imageData rot a ha
    have hfb := albumPage_cards_fields imageData rot b hb
    have hra : a.row = b.row := congrArg Prod.fst heq
    have hca : a.col = b.col := congrArg Prod.snd heq
    apply hne
    have h1 : 2 * (a.srcIndex / 2) + a.srcIndex % 2 = a.srcIndex := Nat.div_add_mod a.srcIndex 2
    have h2 : 2 * (b.srcIndex / 2) + b.srcIndex % 2 = b.srcIndex := Nat.div_add_mod b.srcIndex 2
    rw [← h1, ← h2, ← hfa.1, ← hfa.2.1, ← hfb.1, ← hfb.2.1, hra, hca]

/-- Witness for C8 at a concrete four-image input. -/
theorem createAlbumPage_four_images_witness :
    (createAlbumPage cAlbumInput (fun _ => 0)).width = 2480
    ∧ (createAlbumPage cAlbumInput (fun _ => 0)).height = 3508
    ∧ (∃ card ∈ (createAlbumPage cAlbumInput (fun _ => 0)).cards,
        card.character = "A".toList ∧ ∃ x y, DrawOp.fillTextOp "A".toList x y ∈ card.ops)
    ∧ List.Pairwise (fun a b : CardDraw => (a.row, a.col) ≠ (b.row, b.col))
        (createAlbumPage cAlbumInput (fun _ => 0)).cards := by
  have h := createAlbumPage_four_images cAlbumInput (fun _ => 0) rfl
  exact ⟨h.1, h.2.1, h.2.2.1 "A".toList (by simp [cAlbumInput]), h.2.2.2⟩

/-! ### Scheduler lemmas (C1) -/

theorem setStatus_keys (l : List (Nat × Status)) (t : Nat) (v : Status) :
    (setStatus l t v).map Prod.fst = l.map Prod.fst := by
  induction l with
  | nil => rfl
  | cons p rest ih =>
    show ((if p.1 = t then (t, v) else p) :: setStatus rest t v).map Prod.fst
      = p.1 :: rest.map Prod.fst
    rw [List.map_cons, ih]
    by_cases h : p.1 = t
    · rw [if_pos h, h]
    · rw [if_neg h]

theorem statusOf_setStatus_ne (l : List (Nat × Status)) (t t' : Nat) (v : Status)
    (h : t' ≠ t) : statusOf (setStatus l t v) t' = statusOf l t' := by
  induction l with
  | nil => rfl
  | cons p rest ih =>
    obtain ⟨k, w⟩ := p
    show statusOf ((if k = t then (t, v) else (k, w)) :: setStatus rest t v) t'
      = statusOf ((k, w) :: rest) t'
    by_cases hk : k = t
    · rw [if_pos hk]
      show (if t' = t then some v else statusOf (setStatus rest t v) t')
        = if t' = k then some w else statusOf rest t'
      rw [if_neg h, if_neg (by rw [hk]; exact h), ih]
    · rw [if_neg hk]
      show (if t' = k then some w else statusOf (setStatus rest t v) t')
        = if t' = k then some w else statusOf rest t'
      by_cases ht : t' = k
      · rw [if_pos ht, if_pos ht]
      · rw [if_neg ht, if_neg ht, ih]

theorem statusOf_setStatus_self (l : List (Nat × Status)) (t : Nat) (v : Status) :
    statusOf (setStatus l t v) t = (statusOf l t).map (fun _ => v) := by
  induction l with
  | nil => rfl
  | cons p rest ih =>
    obtain ⟨k, w⟩ := p
    show statusOf ((if k = t then (t, v) else (k, w)) :: setStatus rest t v) t
      = ((if t = k then some w else statusOf rest t).map (fun _ => v))
    by_cases hk : k = t
    · rw [if_pos hk]
      show (if t = t then some v else statusOf (setStatus rest t v) t) = _
      rw [if_pos rfl, if_pos hk.symm]
      rfl
    · rw [if_neg hk]
      show (if t = k then some w else statusOf (setStatus rest t v) t) = _
      rw [if_neg (fun he => hk he.symm), if_neg (fun he => hk he.symm), ih]

theorem statusOf_isSome_of_mem_keys (l : List (Nat × Status)) (t : Nat)
    (h : t ∈ l.map Prod.fst) : ∃ v, statusOf l t = some v := by
  induction l with
  | nil => cases h
  | cons p rest ih =>
    obtain ⟨k, w⟩ := p
    rcases List.mem_cons.mp h with heq | hmem
    · exact ⟨w, by show (if t = k then some w else _) = some w; rw [if_pos heq]⟩
    · by_cases ht : t = k
      · exact ⟨w, by show (if t = k then some w else _) = some w; rw [if_pos ht]⟩
      · obtain ⟨v, hv⟩ := ih hmem
        exact ⟨v, by show (if t = k then some w else _) = some v; rw [if_neg ht]; exact hv⟩

theorem schedInv_init (tasks : List Nat) (conc : Nat) :
    SchedInv tasks conc (initState tasks conc) := by
  refine ⟨List.length_replicate conc none, rfl, ?_, ?_⟩
  · show List.map Prod.fst (tasks.map fun t => (t, Status.pending)) = tasks
    rw [List.map_map]
    exact List.map_id tasks
  · intro t ht _
    exact Or.inl ht

theorem schedInv_step {tasks : List Nat} {conc : Nat} {s s' : SchedState}
    (hinv : SchedInv tasks conc s) (hstep : SchedStep s s') :
    SchedInv tasks conc s' := by
  cases hstep with
  | dequeue i t rest hq hw =>
    refine ⟨?_, ?_, hinv.keys, ?_⟩
    · rw [List.length_set]; exact hinv.wlen
    · rw [hinv.fifo, hq, List.append_assoc]; rfl
    · intro t' ht' hpend
      rcases hinv.pend t' ht' hpend with hin | ⟨j, hj⟩
      · rw [hq] at hin
        rcases List.mem_cons.mp hin with rfl | hmem
        · right
          refine ⟨i, ?_⟩
          have hlt : i < s.workers.length := (List.getElem?_eq_some.mp hw).1
          exact List.getElem?_set_eq_of_lt _ hlt
        · exact Or.inl hmem
      · right
        refine ⟨j, ?_⟩
        have hne : i ≠ j := by
          intro he
          rw [he, hj] at hw
          cases hw
        rw [List.getElem?_set_ne hne]
        exact hj
  | resolve i t ok hw =>
    refine ⟨?_, hinv.fifo, ?_, ?_⟩
    · rw [List.length_set]; exact hinv.wlen
    · rw [setStatus_keys]; exact hinv.keys
    · intro t' ht' hpend
      have htne : t' ≠ t := by
        intro he
        rw [he, statusOf_setStatus_self] at hpend
        cases hv : statusOf s.statuses t with
        | none => rw [hv] at hpend; cases hpend
        | some w =>
          rw [hv] at hpend
          injection hpend with hpend2
          cases ok with
          | true => cases hpend2
          | false => cases hpend2
      rw [statusOf_setStatus_ne _ _ _ _ htne] at hpend
      rcases hinv.pend t' ht' hpend with hin | ⟨j, hj⟩
      · exact Or.inl hin
      · right
        have hne : i ≠ j := by
          intro he
          rw [← he, hw] at hj
          injection hj with hj2
          injection hj2 with hj3
          exact htne hj3.symm
        exact ⟨j, by rw [List.getElem?_set_ne hne]; exact hj⟩

theorem schedInv_reach {tasks : List Nat} {conc : Nat} {s : SchedState}
    (h : SchedReach (initState tasks conc) s) : SchedInv tasks conc s := by
  induction h with
  | refl => exact schedInv_init tasks conc
  | tail _ hs ih => exact schedInv_step ih hs

theorem schedStep_progress (s : SchedState) (hw : s.workers ≠ [])
    (hnostep : ∀ s', ¬ SchedStep s s') :
    s.queue = [] ∧ ∀ w ∈ s.workers, w = none := by
  have hnone : ∀ w ∈ s.workers, w = none := by
    intro w hwm
    cases w with
    | none => rfl
    | some t =>
      obtain ⟨j, hjlt, hjw⟩ := List.mem_iff_getElem.mp hwm
      have hj : s.workers[j]? = some (some t) := by
        rw [List.getElem?_eq_getElem hjlt, hjw]
      exact absurd (SchedStep.resolve s j t true hj) (hnostep _)
  refine ⟨?_, hnone⟩
  cases hq : s.queue with
  | nil => rfl
  | cons t rest =>
    cases hw0 : s.workers[0]? with
    | none =>
      rw [List.getElem?_eq_none_iff] at hw0
      exact absurd (List.eq_nil_of_length_eq_zero (by omega)) hw
    | some w =>
      have hwn : w = none := hnone w ((List.getElem?_eq_some.mp hw0).2 ▸
        List.getElem_mem (List.getElem?_eq_some.mp hw0).1)
      rw [hwn] at hw0
      exact absurd (SchedStep.dequeue s 0 t rest hq hw0) (hnostep _)

theorem noStep_of_final (s : SchedState) (hq : s.queue = [])
    (hn : ∀ w ∈ s.workers, w = none) : ∀ s', ¬ SchedStep s s' := by
  intro s' hstep
  cases hstep with
  | dequeue i t rest hq' hw =>
    rw [hq] at hq'
    cases hq'
  | resolve i t ok hw =>
    have hmem : some t ∈ s.workers :=
      (List.getElem?_eq_some.mp hw).2 ▸ List.getElem_mem (List.getElem?_eq_some.mp hw).1
    cases hn _ hmem

theorem sched_final_statuses {tasks : List Nat} {conc : Nat} {s : SchedState}
    (hinv : SchedInv tasks conc s) (hq : s.queue = [])
    (hnone : ∀ w ∈ s.workers, w = none) :
    ∀ t ∈ tasks, statusOf s.statuses t = some Status.done
      ∨ statusOf s.statuses t = some Status.error := by
  intro t ht
  have hkey : t ∈ s.statuses.map Prod.fst := by rw [hinv.keys]; exact ht
  obtain ⟨v, hv⟩ := statusOf_isSome_of_mem_keys s.statuses t hkey
  cases v with
  | done => exact Or.inl hv
  | error => exact Or.inr hv
  | pending =>
    exfalso
    rcases hinv.pend t ht hv with hin | ⟨j, hj⟩
    · rw [hq] at hin
      cases hin
    · have hmem : some t ∈ s.workers :=
        (List.getElem?_eq_some.mp hj).2 ▸ List.getElem_mem (List.getElem?_eq_some.mp hj).1
      cases hnone _ hmem

/-- C1: in every run of the scheduler with concurrency 2 over the queue
`[0, 1, 2, 3]`: (a) at most 2 tasks are ever concurrently in flight; (b)
tasks are dequeued strictly in input order — the dequeue log followed by
the remaining queue is always exactly the input sequence, so each task is
dequeued exactly once; and (c) whenever no further step is possible (the
run has completed), the queue has been drained, every task was dequeued,
and every task — including any that resolved with failure — carries a
terminal `done` or `error` status (steps may resolve any task either way,
so one task's failure never blocks the rest). -/
theorem scheduler_run_properties (s : SchedState)
    (h : SchedReach (initState [0, 1, 2, 3] 2) s) :
    s.workers.countP Option.isSome ≤ 2
    ∧ [0, 1, 2, 3] = s.dequeued ++ s.queue
    ∧ ((∀ s', ¬ SchedStep s s') →
        s.queue = [] ∧ s.dequeued = [0, 1, 2, 3]
          ∧ ∀ t ∈ ([0, 1, 2, 3] : List Nat),
              statusOf s.statuses t = some Status.done
                ∨ statusOf s.statuses t = some Status.error) := by
  have hinv := schedInv_reach h
  refine ⟨?_, hinv.fifo, fun hns => ?_⟩
  · calc s.workers.countP Option.isSome ≤ s.workers.length := List.countP_le_length _
    _ = 2 := hinv.wlen
  · have hwne : s.workers ≠ [] := by
      intro he
      have hl := hinv.wlen
      rw [he] at hl
      cases hl
    obtain ⟨hq, hnone⟩ := schedStep_progress s hwne hns
    refine ⟨hq, ?_, sched_final_statuses hinv hq hnone⟩
    have hf := hinv.fifo
    rw [hq, List.append_nil] at hf
    exact hf.symm

theorem c1_reach_final : SchedReach (initState [0, 1, 2, 3] 2) c1Final := by
  have h1 : SchedReach (initState [0, 1, 2, 3] 2)
      ⟨[1, 2, 3], [some 0, none],
       [(0, Status.pending), (1, Status.pending), (2, Status.pending), (3, Status.pending)],
       [0]⟩ :=
    SchedReach.tail SchedReach.refl (SchedStep.dequeue _ 0 0 [1, 2, 3] rfl rfl)
  have h2 : SchedReach (initState [0, 1, 2, 3] 2)
      ⟨[1, 2, 3], [none, none],
       [(0, Status.error), (1, Status.pending), (2, Status.pending), (3, Status.pending)],
       [0]⟩ :=
    SchedReach.tail h1 (SchedStep.resolve _ 0 0 false rfl)
  have h3 : SchedReach (initState [0, 1, 2, 3] 2)
      ⟨[2, 3], [some 1, none],
       [(0, Status.error), (1, Status.pending), (2, Status.pending), (3, Status.pending)],
       [0, 1]⟩ :=
    SchedReach.tail h2 (SchedStep.dequeue _ 0 1 [2, 3] rfl rfl)
  have h4 : SchedReach (initState [0, 1, 2, 3] 2)
      ⟨[2, 3], [none, none],
       [(0, Status.error), (1, Status.done), (2, Status.pending), (3, Status.pending)],
       [0, 1]⟩ :=
    SchedReach.tail h3 (SchedStep.resolve _ 0 1 true rfl)
  have h5 : SchedReach (initState [0, 1, 2, 3] 2)
      ⟨[3], [some 2, none],
       [(0, Status.error), (1, Status.done), (2, Status.pending), (3, Status.pending)],
       [0, 1, 2]⟩ :=
    SchedReach.tail h4 (SchedStep.dequeue _ 0 2 [3] rfl rfl)
  have h6 : SchedReach (initState [0, 1, 2, 3] 2)
      ⟨[3], [none, none],
       [(0, Status.error), (1, Status.done), (2, Status.done), (3, Status.pending)],
       [0, 1, 2]⟩ :=
    SchedReach.tail h5 (SchedStep.resolve _ 0 2 true rfl)
  have h7 : SchedReach (initState [0, 1, 2, 3] 2)
      ⟨[], [some 3, none],
       [(0, Status.error), (1, Status.done), (2, Status.done), (3, Status.pending)],
       [0, 1, 2, 3]⟩ :=
    SchedReach.tail h6 (SchedStep.dequeue _ 0 3 [] rfl rfl)
  exact SchedReach.tail h7 (SchedStep.resolve _ 0 3 true rfl)

/-- Witness for C1 at the final state of a concrete full run in which task 0
failed and the remaining tasks were still processed to completion. -/
theorem scheduler_run_properties_witness :
    c1Final.workers.countP Option.isSome ≤ 2
    ∧ [0, 1, 2, 3] = c1Final.dequeued ++ c1Final.queue
    ∧ c1Final.queue = [] ∧ c1Final.dequeued = [0, 1, 2, 3]
    ∧ (statusOf c1Final.statuses 1 = some Status.done
        ∨ statusOf c1Final.statuses 1 = some Status.error) := by
  have h := scheduler_run_properties c1Final c1_reach_final
  have hns : ∀ s', ¬ SchedStep c1Final s' :=
    noStep_of_final c1Final rfl (by decide)
  obtain ⟨hq, hd, hterm⟩ := h.2.2 hns
  exact ⟨h.1, h.2.1, hq, hd, hterm 1 (by decide)⟩

end PubgLobby
